import Mathlib

/-!
Shallow embedding of the multigrep (`mgp`) scanning engine.

The definitions below are translated from the repository's Go source:
`mgp.go` (the engine: `printHandler`, `handler`, `processPath`,
`handlePathError`, `setSignalHandlers`, `Run`) and the argument-parsing
file (`Flags`, `GetExcludedDirs`, `ParseArgs`).  Pure functions become
Lean functions; the per-worker loop becomes a function from the observable
file contents (open result and successive buffered-read results) to the
list of output lines it emits; the shared run state becomes a step
relation.  Behaviour of Go library calls that the engine depends on
(`filepath.Match`, `filepath.Base`, `bufio.Reader.ReadBytes`,
`regexp.Compile`) is modelled explicitly where a claim needs it.
-/

namespace Multigrep

/-- The three message kinds of `mgp.go` (`MatchMessage`, `ErrorMatchMessage`,
`TextMessage`). -/
inductive MessageType
  | MatchMessage
  | ErrorMatchMessage
  | TextMessage
deriving DecidableEq

/-- File metadata as the engine observes it through `os.FileInfo`:
`IsDir()`, `Mode().IsRegular()`, `Size()`. -/
structure FileInfo where
  isDir : Bool
  isRegular : Bool
  size : Int
deriving DecidableEq

/-- The `Entry` struct of `mgp.go`: a path together with its `os.FileInfo`. -/
structure Entry where
  Path : String
  Info : FileInfo
deriving DecidableEq

/-- One line written to the log.  `sym ok msg` is a line consisting of a
symbol (the green check mark when `ok`, the red cross otherwise) followed by
`msg`; `plain msg` is a line consisting of `msg` alone.  This abstracts the
ANSI colour escapes of the `color` package while keeping which symbol, if
any, a line carries. -/
inductive OutLine
  | sym (ok : Bool) (msg : String)
  | plain (msg : String)
deriving DecidableEq

/-- `printHandler` of `mgp.go`, as the list of lines it writes.
With colours on, a match prints a check-mark line and an error match prints
a cross line; with colours off, a match prints the bare message and an
error match prints nothing at all (the `ErrorMatchMessage` case has no
`else` branch).  `TextMessage` always prints the bare message. -/
def printHandler (coloredOutput : Bool) (message : String) (t : MessageType) :
    List OutLine :=
  match t with
  | .MatchMessage =>
      if coloredOutput then [.sym true message] else [.plain message]
  | .ErrorMatchMessage =>
      if coloredOutput then [.sym false message] else []
  | .TextMessage => [.plain message]

/-- The `Flags` struct of the argument-parsing file. -/
structure Flags where
  workers : Int
  nocolor : Bool
  icase : Bool
  exclude : String
  limitBytes : Int
  matchContext : Bool
deriving DecidableEq

/-- `STD_EXC_DIRS` from the argument-parsing file. -/
def STD_EXC_DIRS : List String :=
  [".bzr", "CVS", ".git", ".hg", ".svn", ".idea", ".tox"]

/-- Helper for `stringsSplit`: accumulates the current field (reversed). -/
def splitCharsAux (sep : Char) : List Char → List Char → List (List Char)
  | acc, [] => [acc.reverse]
  | acc, c :: rest =>
      if c = sep then acc.reverse :: splitCharsAux sep [] rest
      else splitCharsAux sep (c :: acc) rest

/-- Models Go's `strings.Split` with a one-character separator: the fields
between separator occurrences, in order, empty fields included. -/
def stringsSplit (s : String) (sep : Char) : List String :=
  (splitCharsAux sep [] s.data).map String.mk

/-- The method `(*Flags).GetExcludedDirs`: the standard exclusions alone when
`-exc` is empty, otherwise the standard exclusions with the comma-separated
user globs appended (`append(STD_EXC_DIRS, strings.Split(f.exclude, ",")...)`). -/
def Flags.GetExcludedDirs (f : Flags) : List String :=
  if f.exclude = "" then STD_EXC_DIRS
  else STD_EXC_DIRS ++ stringsSplit f.exclude ','

/-- `MEGABYTE` from the argument-parsing file. -/
def MEGABYTE : Int := 1048576

/-- A command line as `flag.Parse` sees it: for each option, whether it was
supplied and with which value (boolean options are supplied-or-not). -/
structure CmdLine where
  wOpt : Option Int := none
  limOpt : Option Int := none
  iFlag : Bool := false
  rawFlag : Bool := false
  excOpt : Option String := none
  ctxFlag : Bool := false
deriving DecidableEq

/-- `ParseArgs` of the argument-parsing file, restricted to the flag state it
builds.  The order of operations is the source's: each `flag.XVar`
registration stores its default into the field immediately; then the line
`f.limitBytes = f.limitBytes * MEGABYTE` runs; only then does `flag.Parse()`
run, overwriting exactly the fields whose options were supplied with the raw
supplied values. -/
def ParseArgs (c : CmdLine) : Flags :=
  let f : Flags :=
    { workers := 100, nocolor := false, icase := false,
      exclude := "", limitBytes := 100, matchContext := false }
  let f := { f with limitBytes := f.limitBytes * MEGABYTE }
  let f :=
    { f with
      workers := c.wOpt.getD f.workers,
      limitBytes := c.limOpt.getD f.limitBytes,
      icase := c.iFlag || f.icase,
      nocolor := c.rawFlag || f.nocolor,
      exclude := c.excOpt.getD f.exclude,
      matchContext := c.ctxFlag || f.matchContext }
  f

/-- Models Go's `path/filepath.Base`: strip trailing separators, then keep
everything after the last separator; the empty path gives `"."` and an
all-separator path gives `"/"`. -/
def goBase (p : String) : String :=
  if p = "" then "."
  else
    let t := p.data.reverse.dropWhile (fun c => c = '/')
    if t = [] then "/"
    else String.mk ((t.takeWhile (fun c => c != '/')).reverse)

/-- Models Go's `path/filepath.Match` on the fragment without character
classes or escapes: `*` matches any (possibly empty) run of non-separator
characters, `?` matches one non-separator character, every other pattern
character matches itself, and the whole name must be consumed. -/
def globMatch (p s : List Char) : Bool :=
  match p, s with
  | [], [] => true
  | [], _ :: _ => false
  | '*' :: p', s =>
      globMatch p' s ||
        (match s with
         | [] => false
         | c :: s' => c != '/' && globMatch ('*' :: p') s')
  | '?' :: p', c :: s' => c != '/' && globMatch p' s'
  | '?' :: _, [] => false
  | c :: p', d :: s' => c = d && globMatch p' s'
  | _ :: _, [] => false
termination_by p.length + s.length
decreasing_by all_goals simp_arith [List.length]

/-- The action a `filepath.WalkFunc` returns: `filepath.SkipDir` or `nil`. -/
inductive WalkAction
  | skipDir
  | cont
deriving DecidableEq

/-- `processPath` of `mgp.go`: the walk action it returns together with the
entry it enqueues, if any.  The exclusion loop returns `SkipDir` as soon as
a glob matches the full path or the base name, but only when the path is a
directory; a non-directory is enqueued whenever its size is strictly below
the limit. -/
def processPath (info : FileInfo) (pathname : String) (exc : List String)
    (limitMb : Int) : WalkAction × Option Entry :=
  let isdir := info.isDir
  if isdir &&
      exc.any (fun n =>
        globMatch n.data pathname.data || globMatch n.data (goBase pathname).data)
  then (.skipDir, none)
  else if !isdir && decide (info.size < limitMb)
  then (.cont, some ⟨pathname, info⟩)
  else (.cont, none)

/-- A walk error as the engine observes it: whether `os.IsNotExist` holds of
it, and its `Error()` text. -/
structure WalkErr where
  isNotExist : Bool
  text : String
deriving DecidableEq

/-- Outcome of `handlePathError`: either the whole process dies through
`log.Fatal` (printing its message), or the walk proceeds with some output
lines emitted and a walk action returned. -/
inductive PathErrResult
  | fatal (msg : String)
  | proceed (out : List OutLine) (act : WalkAction)
deriving DecidableEq

/-- `handlePathError` of `mgp.go`: any error satisfying `os.IsNotExist` hits
`log.Fatal("Invalid path")`; otherwise the path is reported as an
`ErrorMatchMessage` followed by the error text as a `TextMessage`, and the
subtree is skipped when the path is a directory. -/
def handlePathError (coloredOutput : Bool) (info : FileInfo) (pathname : String)
    (err : WalkErr) : PathErrResult :=
  if err.isNotExist then .fatal "Invalid path"
  else
    .proceed
      (printHandler coloredOutput pathname .ErrorMatchMessage ++
        printHandler coloredOutput err.text .TextMessage)
      (if info.isDir then .skipDir else .cont)

/-- The error component of one `bufio.Reader.ReadBytes` result: `ok` when the
delimiter was found, `eof` for `io.EOF`, `other` for any other read error. -/
inductive ReadErr
  | ok
  | eof
  | other
deriving DecidableEq

/-- Helper for `readSeq`: accumulates the current line (reversed). -/
def readSeqAux : List Char → List Char → List (List Char × ReadErr)
  | acc, [] => [(acc.reverse, .eof)]
  | acc, '\n' :: rest => (acc.reverse ++ ['\n'], .ok) :: readSeqAux [] rest
  | acc, c :: rest => readSeqAux (c :: acc) rest

/-- Models the sequence of results of successive `ReadBytes('\n')` calls on
an error-free reader over the given content: each full line is returned with
its delimiter and no error, and the final call returns the data after the
last delimiter (possibly empty) together with `io.EOF`. -/
def readSeq (content : List Char) : List (List Char × ReadErr) :=
  readSeqAux [] content

/-- Substring test on character lists, used as a concrete executable
instance of a pattern predicate in the evaluation theorems. -/
def containsStr (pat s : List Char) : Bool :=
  s.tails.any (fun t => pat.isPrefixOf t)

/-- What the worker observes of one dequeued entry's file: the (re-checked)
regularity, whether `os.Open` succeeded, and the successive
`ReadBytes('\n')` results. -/
structure FileView where
  isRegular : Bool
  openOk : Bool
  reads : List (List Char × ReadErr)
deriving DecidableEq

/-- The read loop of `handler` in `mgp.go`, over the sequence of `ReadBytes`
results: a result carrying `io.EOF` breaks out of the loop before any match
test; any other result has its data tested against the pattern, and on a
match the path is printed as a `MatchMessage` and the loop breaks. -/
def scanEntryLoop (coloredOutput : Bool) (P : List Char → Bool) (path : String) :
    List (List Char × ReadErr) → List OutLine
  | [] => []
  | (_, .eof) :: _ => []
  | (d, _) :: rest =>
      if P d then printHandler coloredOutput path .MatchMessage
      else scanEntryLoop coloredOutput P path rest

/-- The per-entry body of `handler` in `mgp.go`: a non-regular entry is
skipped, a failed `os.Open` is skipped, and otherwise the read loop runs.
The result is the list of output lines the worker emits for this entry. -/
def processEntry (coloredOutput : Bool) (P : List Char → Bool) (path : String)
    (fv : FileView) : List OutLine :=
  if fv.isRegular = false then []
  else if fv.openOk = false then []
  else scanEntryLoop coloredOutput P path fv.reads

/-- The file view of an eligible, readable, error-free file with the given
content. -/
def fileViewOf (content : List Char) : FileView :=
  ⟨true, true, readSeq content⟩

/-- Parenthesis-balance check, by running depth. -/
def parensOk : List Char → Int → Bool
  | [], d => d = 0
  | '(' :: r, d => parensOk r (d + 1)
  | ')' :: r, d => decide (0 < d) && parensOk r (d - 1)
  | _ :: r, d => parensOk r d

/-- A compiled pattern, as workers share it (`*regexp.Regexp`). -/
structure Regex where
  pat : String
deriving DecidableEq

/-- Models Go's `regexp.Compile` on the parenthesis-balance fragment of
pattern validity: `Compile` returns `(nil, err)` exactly on an invalid
pattern, and a pattern with unbalanced parentheses, such as `"("`, is
invalid.  `none` stands for the `nil` `*Regexp` returned on error. -/
def regexpCompile (p : String) : Option Regex :=
  if parensOk p.data 0 then some ⟨p⟩ else none

/-- The pattern-compilation step of `Run` in `mgp.go`: the pattern is
prefixed with `(?i)` when case-insensitive matching is requested, and the
result of `regexp.Compile` is taken with its error discarded
(`r, _ := regexp.Compile(pattern)`), so an invalid pattern yields `none`
with no event emitted and no abort. -/
def runCompile (caseInsensitive : Bool) (pattern : String) : Option Regex :=
  regexpCompile (if caseInsensitive then "(?i)" ++ pattern else pattern)

/-- Outcome of the worker's `r.Match(line)` call: on a `nil` receiver the
call dereferences nil and panics; otherwise it returns a boolean. -/
inductive MatchOutcome
  | nilPanic
  | res (b : Bool)
deriving DecidableEq

/-- The worker's `r.Match(line)` call, with the semantics of a successfully
compiled matcher kept abstract as `matchFn`. -/
def rMatch (matchFn : Regex → List Char → Bool) (r : Option Regex)
    (line : List Char) : MatchOutcome :=
  match r with
  | none => .nilPanic
  | some re => .res (matchFn re line)

/-- The shared state of one run of `Run` in `mgp.go`: the `stopWalk` flag,
the entry channel (its buffered contents and whether it is closed) and the
pending per-worker cancellation tokens of `closeSignalChan`; `workers` is
the worker count, fixed for the run. -/
structure RunState where
  stopWalk : Bool
  queueClosed : Bool
  queue : List Entry
  tokens : Nat
  workers : Nat
deriving DecidableEq

/-- The state just after `Run`'s initialisation: `stopWalk := false`, an
open empty channel, no cancellation tokens. -/
def initRunState (w : Nat) : RunState :=
  { stopWalk := false, queueClosed := false, queue := [], tokens := 0,
    workers := w }

/-- One observable step of the run, mirroring the operations of `mgp.go`
that touch the shared state: the signal goroutine of `setSignalHandlers`
sets `stopWalk` and sends one token per worker; the walk callback enqueues
only while `stopWalk` is false and the channel is open; `Run` closes the
channel; a worker dequeues an entry, consumes a cancellation token, or spins
through the `default` branch of its `select`.  No step ever sets `stopWalk`
back to false. -/
inductive Step : RunState → RunState → Prop
  | signal (s : RunState) :
      Step s { s with stopWalk := true, tokens := s.tokens + s.workers }
  | walkEnqueue (s : RunState) (e : Entry) :
      s.stopWalk = false → s.queueClosed = false →
      Step s { s with queue := s.queue ++ [e] }
  | walkClose (s : RunState) :
      s.queueClosed = false →
      Step s { s with queueClosed := true }
  | workerDequeue (s : RunState) (e : Entry) (rest : List Entry) :
      s.queue = e :: rest →
      Step s { s with queue := rest }
  | workerToken (s : RunState) :
      0 < s.tokens →
      Step s { s with tokens := s.tokens - 1 }
  | workerSpin (s : RunState) :
      Step s s

/-- A finite execution trace: the list of states reached after the start
state by successive steps. -/
inductive RunTrace : RunState → List RunState → Prop
  | nil (s : RunState) : RunTrace s []
  | cons {s s' : RunState} {l : List RunState} :
      Step s s' → RunTrace s' l → RunTrace s (s' :: l)

/-- Number of false-to-true flips along a list of boolean observations. -/
def countRises : List Bool → Nat
  | a :: b :: t => (if a = false ∧ b = true then 1 else 0) + countRises (b :: t)
  | _ => 0

theorem step_stopWalk_mono {s s' : RunState} (h : Step s s')
    (ht : s.stopWalk = true) : s'.stopWalk = true := by
  cases h <;> simp_all

theorem trace_countRises_zero_of_true :
    ∀ {s : RunState} {l : List RunState}, RunTrace s l → s.stopWalk = true →
      countRises ((s :: l).map RunState.stopWalk) = 0 := by
  intro s l h
  induction h with
  | nil s => intro _; rfl
  | cons hstep _ ih =>
      intro hs
      have hs' := step_stopWalk_mono hstep hs
      have h0 := ih hs'
      simp only [List.map_cons] at h0
      simp only [List.map_cons, countRises]
      rw [h0]
      simp [hs, hs']

theorem trace_countRises_le_one :
    ∀ {s : RunState} {l : List RunState}, RunTrace s l →
      countRises ((s :: l).map RunState.stopWalk) ≤ 1 := by
  intro s l h
  induction h with
  | nil s => simp [countRises]
  | cons hstep htail ih =>
      rename_i s s' l'
      by_cases hs : s.stopWalk = true
      · rw [trace_countRises_zero_of_true (RunTrace.cons hstep htail) hs]
        omega
      · have hsf : s.stopWalk = false := by
          cases hx : s.stopWalk
          · rfl
          · exact absurd hx hs
        by_cases hs' : s'.stopWalk = true
        · have h0 : countRises ((s' :: l').map RunState.stopWalk) = 0 :=
            trace_countRises_zero_of_true htail hs'
          simp only [List.map_cons] at h0
          simp only [List.map_cons, countRises]
          rw [h0, hsf, hs']
          simp
        · have hsf' : s'.stopWalk = false := by
            cases hx : s'.stopWalk
            · rfl
            · exact absurd hx hs'
          simp only [List.map_cons] at ih
          rw [hsf'] at ih
          simp only [List.map_cons, countRises]
          rw [hsf, hsf']
          simpa using ih

/-- Claim C1: the claim states that an eligible file whose only matching line
is the final line without a trailing newline, or whose content matches only
across line boundaries, still yields exactly one Match event.  Evaluating the
worker at these inputs shows it emits no event in either case: the final
`ReadBytes` call returns the unterminated last line together with `io.EOF`
and the loop breaks before the match test, and a pattern spanning a line
boundary never matches any single buffered line. -/
theorem C1_last_line_and_cross_line_dropped :
    containsStr ['f', 'o', 'o'] ['f', 'o', 'o'] = true ∧
    processEntry true (containsStr ['f', 'o', 'o']) "a.txt"
      (fileViewOf ['f', 'o', 'o']) = [] ∧
    containsStr ['o', '\n', 'b'] ['f', 'o', 'o', '\n', 'b', 'a', 'r', '\n'] = true ∧
    processEntry true (containsStr ['o', '\n', 'b']) "b.txt"
      (fileViewOf ['f', 'o', 'o', '\n', 'b', 'a', 'r', '\n']) = [] := by
  decide

/-- Claim C2, counterexample: a non-directory path whose name matches an
exclusion glob is enqueued anyway, and a non-regular non-directory path is
enqueued anyway, both contradicting the claim that such paths are never
enqueued. -/
theorem C2_excluded_or_irregular_file_enqueued :
    ((processPath ⟨false, true, 10⟩ "skip.txt" ["skip.txt"] 104857600).2).isSome
      = true ∧
    ((processPath ⟨false, false, 10⟩ "dev.sock" [] 104857600).2).isSome = true := by
  decide

/-- Claim C2, amended: the walker enqueues a path exactly when it is not a
directory and its size is strictly below the limit; the exclusion set is
consulted only for directories, and regularity is not checked at enqueue
time. -/
theorem C2_enqueue_iff (info : FileInfo) (path : String) (exc : List String)
    (lim : Int) :
    ((processPath info path exc lim).2).isSome = true ↔
      (info.isDir = false ∧ info.size < lim) := by
  rcases info with ⟨d, r, sz⟩
  cases d
  · simp only [processPath]
    by_cases h : sz < lim <;> simp [h]
  · simp only [processPath]
    split <;> simp

/-- Claim C3: the claim states that with the match-context flag enabled the
worker emits one Match event per matching line.  The flag is parsed (the
parser sets `matchContext`), but the engine's worker stops at the first
match unconditionally: on a file with two matching lines exactly one event
is emitted. -/
theorem C3_ctx_flag_has_no_effect :
    (ParseArgs { ctxFlag := true }).matchContext = true ∧
    processEntry true (containsStr ['f', 'o', 'o']) "a.txt"
      (fileViewOf ['f', 'o', 'o', '\n', 'f', 'o', 'o', '\n']) =
      [OutLine.sym true "a.txt"] := by
  exact ⟨rfl, by decide⟩

/-- Claim C4, counterexample: a not-exist error for a path discovered in the
middle of the traversal (not the root at the very start) is handled by
`log.Fatal`, aborting the whole run, where the claim requires an Error event
and continued traversal. -/
theorem C4_notexist_mid_walk_fatal :
    handlePathError true ⟨false, true, 0⟩ "subdir/gone.txt"
      ⟨true, "lstat subdir/gone.txt: no such file or directory"⟩ =
      PathErrResult.fatal "Invalid path" := by
  rfl

/-- Claim C4, amended: a walk error satisfying `os.IsNotExist` aborts the
whole run via `log.Fatal`, whether it concerns the root or a path discovered
mid-traversal; every other walk error is reported (the failure line subject
to the colour setting) and traversal continues, skipping the subtree when
the path is a directory. -/
theorem C4_walk_error_dichotomy (colored : Bool) (info : FileInfo)
    (path : String) (err : WalkErr) :
    (err.isNotExist = true →
      handlePathError colored info path err = PathErrResult.fatal "Invalid path") ∧
    (err.isNotExist = false →
      handlePathError colored info path err =
        PathErrResult.proceed
          (printHandler colored path MessageType.ErrorMatchMessage ++
            [OutLine.plain err.text])
          (if info.isDir then WalkAction.skipDir else WalkAction.cont)) := by
  constructor
  · intro h
    simp [handlePathError, h]
  · intro h
    simp [handlePathError, h, printHandler]

/-- Witness for C4's amended theorem at a concrete non-not-exist error on a
directory. -/
theorem C4_walk_error_dichotomy_witness :
    handlePathError false ⟨true, false, 0⟩ "locked" ⟨false, "permission denied"⟩ =
      PathErrResult.proceed [OutLine.plain "permission denied"]
        WalkAction.skipDir := by
  have h :=
    (C4_walk_error_dichotomy false ⟨true, false, 0⟩ "locked"
      ⟨false, "permission denied"⟩).2 rfl
  simpa [printHandler] using h

/-- Claim C5: the claim states that a supplied `-lim v` yields a limit of
`v * 1048576` bytes.  The multiplication by `MEGABYTE` runs before
`flag.Parse`, so a supplied value reaches the eligibility check as raw
bytes: `-lim 1` gives a limit of 1, not 1048576, while the unsupplied
default is indeed 100 megabytes in bytes. -/
theorem C5_limit_not_converted_to_bytes :
    (ParseArgs { limOpt := some 1 }).limitBytes = 1 ∧
    (ParseArgs { limOpt := some 1 }).limitBytes ≠ 1 * MEGABYTE ∧
    (ParseArgs {}).limitBytes = 100 * MEGABYTE := by
  decide

/-- Claim C6: the effective exclusion set always contains every default
glob, and when `-exc` is supplied (non-empty) it is exactly the default set
with each user-supplied comma-separated glob appended. -/
theorem C6_exclusion_set (f : Flags) :
    (∀ d ∈ STD_EXC_DIRS, d ∈ f.GetExcludedDirs) ∧
    (f.exclude ≠ "" →
      f.GetExcludedDirs = STD_EXC_DIRS ++ stringsSplit f.exclude ',') := by
  constructor
  · intro d hd
    unfold Flags.GetExcludedDirs
    split
    · exact hd
    · exact List.mem_append_left _ hd
  · intro h
    unfold Flags.GetExcludedDirs
    rw [if_neg h]

/-- Witness for C6 at a concrete flag value with two user globs. -/
theorem C6_exclusion_set_witness :
    ".git" ∈ (Flags.mk 100 false false "build,dist" 104857600 false).GetExcludedDirs ∧
    (Flags.mk 100 false false "build,dist" 104857600 false).GetExcludedDirs =
      STD_EXC_DIRS ++ ["build", "dist"] := by
  refine ⟨(C6_exclusion_set _).1 ".git" (by decide), ?_⟩
  have h :=
    (C6_exclusion_set (Flags.mk 100 false false "build,dist" 104857600 false)).2
      (by decide)
  rw [h]
  decide

/-- Claim C7: the claim states that any failure to open or read a dequeued
file is silently skipped with no event.  A failed `os.Open` is indeed
skipped silently (first two conjuncts), but a read failure is not: the
worker only breaks on `io.EOF`, so the data returned alongside a different
read error is still pattern-tested and here emits a Match event. -/
theorem C7_read_error_emits_match :
    processEntry true (containsStr ['f', 'o', 'o']) "c.txt" ⟨true, false, []⟩ = [] ∧
    processEntry true (containsStr ['f', 'o', 'o']) "d.txt" ⟨false, true, []⟩ = [] ∧
    processEntry true (containsStr ['f', 'o', 'o']) "e.txt"
      ⟨true, true, [(['f', 'o', 'o'], ReadErr.other)]⟩ =
      [OutLine.sym true "e.txt"] := by
  decide

/-- Claim C8: the StopCondition (`stopWalk`) starts false, no step of the
run ever resets it once true, and along any finite trace of run steps it
flips from false to true at most once. -/
theorem C8_stop_condition_monotonic :
    (∀ w, (initRunState w).stopWalk = false) ∧
    (∀ s s' : RunState, Step s s' → s.stopWalk = true → s'.stopWalk = true) ∧
    (∀ (w : Nat) (l : List RunState), RunTrace (initRunState w) l →
      countRises ((initRunState w :: l).map RunState.stopWalk) ≤ 1) := by
  exact ⟨fun _ => rfl, fun _ _ h ht => step_stopWalk_mono h ht,
    fun _ _ h => trace_countRises_le_one h⟩

/-- Witness for C8 at a concrete one-step trace in which the signal handler
fires. -/
theorem C8_stop_condition_monotonic_witness :
    (initRunState 2).stopWalk = false ∧
    ({ stopWalk := true, queueClosed := false, queue := [], tokens := 0 + 0,
       workers := 0 } : RunState).stopWalk = true ∧
    countRises ((initRunState 1 ::
      [({ stopWalk := true, queueClosed := false, queue := [], tokens := 0 + 1, workers := 1 } : RunState)]).map
        RunState.stopWalk) ≤ 1 := by
  refine ⟨C8_stop_condition_monotonic.1 2, ?_,
    C8_stop_condition_monotonic.2.2 1 _
      (RunTrace.cons (Step.signal _) (RunTrace.nil _))⟩
  exact C8_stop_condition_monotonic.2.1 ⟨true, false, [], 0, 0⟩ _
    (Step.signal _) rfl

/-- Claim C9, counterexample: with colored output disabled, the reporter
prints nothing at all for an `ErrorMatchMessage`, so a walk error produces
only the error-text line and no failure-symbol line, contradicting the
claim that the failure line appears regardless of the colour setting. -/
theorem C9_raw_mode_drops_failure_line :
    printHandler false "p.txt" MessageType.ErrorMatchMessage = [] ∧
    handlePathError false ⟨false, true, 0⟩ "p.txt" ⟨false, "permission denied"⟩ =
      PathErrResult.proceed [OutLine.plain "permission denied"]
        WalkAction.cont := by
  exact ⟨rfl, rfl⟩

/-- Claim C9, amended: for a walk-error event that is not a not-exist error,
with colored output enabled the reporter emits a failure-symbol line with
the path followed by a line with the error text; with colored output
disabled the failure line is suppressed and only the error-text line is
emitted. -/
theorem C9_walk_error_output (colored : Bool) (info : FileInfo) (path : String)
    (err : WalkErr) (h : err.isNotExist = false) :
    handlePathError colored info path err =
      PathErrResult.proceed
        (if colored then [OutLine.sym false path, OutLine.plain err.text]
         else [OutLine.plain err.text])
        (if info.isDir then WalkAction.skipDir else WalkAction.cont) := by
  simp only [handlePathError, h]
  cases colored <;> simp [printHandler]

/-- Witness for C9's amended theorem at a concrete error with colours on. -/
theorem C9_walk_error_output_witness :
    handlePathError true ⟨false, true, 0⟩ "q.txt" ⟨false, "io error"⟩ =
      PathErrResult.proceed
        [OutLine.sym false "q.txt", OutLine.plain "io error"]
        WalkAction.cont := by
  have h := C9_walk_error_output true ⟨false, true, 0⟩ "q.txt" ⟨false, "io error"⟩ rfl
  simpa using h

/-- Claim C10: for the syntactically invalid pattern `"("`, the compilation
step of `Run` discards the error and yields the `nil` matcher (`none`),
emitting nothing; a worker's first content test on that shared matcher is a
nil-receiver `Match` call, not a reported failure. -/
theorem C10_invalid_pattern_gives_nil_matcher :
    runCompile false "(" = none ∧
    ∀ (matchFn : Regex → List Char → Bool) (line : List Char),
      rMatch matchFn none line = MatchOutcome.nilPanic := by
  exact ⟨rfl, fun _ _ => rfl⟩

end Multigrep
